import Mathlib

/-!
Shallow embedding of libkmod's module-object core
(`src/libkmod/libkmod-module.c`) and theorems about its behaviour.

Modelling conventions: C strings are `List Char` (the characters of the
buffer before the terminating NUL); machine integers are `Int`/`Nat`;
pointers that may be NULL are `Option`; every external effect
(allocation, filesystem access, syscalls, the four alias lookup
sources) is an explicit oracle argument, so all definitions are
executable.
-/

/-- A C string: the characters before the terminating NUL. -/
abbrev CStr := List Char

/-- Readable literal conversion. -/
def toL (s : String) : CStr := s.toList

/-- The NUL character that `strtok_r` and `path_to_modname` write into
the caller's buffer. -/
def NUL : Char := '\x00'

/-- Linux errno values used by the source (asm-generic numbering). -/
def ENOENT : Int := 2

/-- Out of memory. -/
def ENOMEM : Int := 12

/-- Permission denied. -/
def EACCES : Int := 13

/-- Invalid argument / invalid data. -/
def EINVAL : Int := 22

/-- Function not implemented (the source's "not supported"). -/
def ENOSYS : Int := 38

/-- GNU `basename` (the `string.h` variant, selected by the source's
includes): the suffix after the last '/' of the string.  Unlike POSIX
basename it returns the empty string when the path ends in '/'. -/
def gnu_basename (s : CStr) : CStr :=
  (s.reverse.takeWhile (fun c => c ≠ '/')).reverse

/-- Value computed by `path_to_modname` (lines 56-75): `none` models the
NULL return when the basename is empty (`modname[0] == '\0'`);
otherwise the basename's characters up to the first '.', with every '-'
replaced by '_'.  The C `alloc` flag only chooses between in-place and
copied storage and does not change the value. -/
def path_to_modname (path : CStr) : Option CStr :=
  let modname := gnu_basename path
  if modname = [] then none
  else some ((modname.takeWhile (fun c => c ≠ '.')).map
      (fun c => if c = '-' then '_' else c))

/-- `struct kmod_module` (lines 45-54).  `ctx` is a numeric context id
(the `ctx` pointer of a live module is never NULL), `dep` is the
`kmod_list` of dependencies with `[]` playing the role of the NULL
(empty) list, `initDep` is the `init.dep` bitfield. -/
inductive kmod_module : Type where
  | mk (ctx : Nat) (path : Option CStr) (name : Option CStr)
      (dep : List kmod_module) (refcount : Int) (initDep : Bool) : kmod_module

/-- Field projection for `ctx`. -/
def kmod_module.ctx : kmod_module → Nat
  | .mk c _ _ _ _ _ => c

/-- Field projection for `path`. -/
def kmod_module.path : kmod_module → Option CStr
  | .mk _ p _ _ _ _ => p

/-- Field projection for `name`. -/
def kmod_module.name : kmod_module → Option CStr
  | .mk _ _ n _ _ _ => n

/-- Field projection for `dep`. -/
def kmod_module.dep : kmod_module → List kmod_module
  | .mk _ _ _ d _ _ => d

/-- Field projection for `refcount`. -/
def kmod_module.refcount : kmod_module → Int
  | .mk _ _ _ _ r _ => r

/-- Field projection for the `init.dep` guard bit. -/
def kmod_module.initDep : kmod_module → Bool
  | .mk _ _ _ _ _ i => i

/-- `kmod_module_new_from_name` (lines 130-152).  `allocOk` is the
outcome of `calloc`; on success the new module holds the context, a
copy of the name, refcount 1, no path, no dependencies. -/
def kmod_module_new_from_name (allocOk : Bool) (ctx : Option Nat)
    (name : Option CStr) : Except Int kmod_module :=
  match ctx, name with
  | some c, some nm =>
      if allocOk then .ok (.mk c none (some nm) [] 1 false)
      else .error (-ENOMEM)
  | _, _ => .error (-ENOENT)

/-- `kmod_module_new_from_path` (lines 154-182).  `statErr` is the errno
of the `stat` call when it fails; `allocOk` the outcome of `calloc`. -/
def kmod_module_new_from_path (allocOk : Bool) (statErr : Option Int)
    (ctx : Option Nat) (path : Option CStr) : Except Int kmod_module :=
  match ctx, path with
  | some c, some p =>
      match statErr with
      | some e => .error (-e)
      | none =>
          if allocOk then .ok (.mk c (some p) none [] 1 false)
          else .error (-ENOMEM)
  | _, _ => .error (-ENOENT)

/-- Record of what `kmod_module_unref` releases when the refcount
reaches zero (lines 194-197): the dependency list handed to
`kmod_module_unref_list`, the context reference handed to `kmod_unref`,
and the two owned strings handed to `free`. -/
structure Released where
  dep : List kmod_module
  ctx : Nat
  path : Option CStr
  name : Option CStr

/-- `kmod_module_unref` (lines 184-200): a no-op on NULL; otherwise the
refcount is pre-decremented and, unless still positive, the module is
destroyed.  First component: the returned pointer.  Second component:
`some` of the destruction record exactly when the module was freed. -/
def kmod_module_unref : Option kmod_module → Option kmod_module × Option Released
  | none => (none, none)
  | some m =>
      if m.refcount - 1 > 0 then
        (some (.mk m.ctx m.path m.name m.dep (m.refcount - 1) m.initDep), none)
      else
        (none, some ⟨m.dep, m.ctx, m.path, m.name⟩)

/-- `kmod_module_ref` (lines 202-210): a no-op on NULL; otherwise
increments the refcount and returns the same module. -/
def kmod_module_ref : Option kmod_module → Option kmod_module
  | none => none
  | some m => some (.mk m.ctx m.path m.name m.dep (m.refcount + 1) m.initDep)

/-- `kmod_module_unref_list` (lines 258-264): unref every element in
list order. -/
def kmod_module_unref_list (l : List kmod_module) :
    List (Option kmod_module × Option Released) :=
  l.map (fun m => kmod_module_unref (some m))

/-- Separator set of the `strtok_r(p, " \t", ...)` tokenization in
`kmod_module_parse_dep`. -/
def isSep (c : Char) : Bool := c = ' ' || c = '\t'

/-- `strchr(line, ':')` followed by `p++` (lines 95-99): the characters
after the first ':', or `none` when the line has no colon. -/
def strchrColon : CStr → Option CStr
  | [] => none
  | c :: rest => if c = ':' then some rest else strchrColon rest

/-- In-place effect of `path_to_modname(tok, false)` on the token's own
characters inside the caller's buffer.  The rewrite loop starts at the
token's GNU basename (the suffix after the last '/'), so the prefix up
to and including the last '/' is untouched; when the basename is empty
the function returns NULL before its loop and writes nothing.  Within
the basename, '-' becomes '_' up to the first '.', and the first '.'
(if any) is overwritten with NUL; characters after that NUL keep their
old values.  The length is preserved. -/
def modnameXform (tok : CStr) : CStr :=
  let b := gnu_basename tok
  if b = [] then tok
  else
    tok.take (tok.length - b.length) ++
      ((b.takeWhile (fun c => c ≠ '.')).map (fun c => if c = '-' then '_' else c) ++
        (match b.dropWhile (fun c => c ≠ '.') with
         | [] => []
         | _ :: rest => NUL :: rest))

/-- Outcome of the dependency loop of `kmod_module_parse_dep`
(lines 101-117): either the accumulated list with the count `n`, or the
list released by `kmod_module_unref_list` on the `fail` path together
with the propagated error. -/
inductive DepRes : Type where
  | ok (list : List kmod_module) (n : Nat) : DepRes
  | fail (released : List kmod_module) (err : Int) : DepRes

/-- The `strtok_r` loop of `kmod_module_parse_dep` (lines 101-117) over
the region after the colon, simulated character by character.  `st` is
`none` while scanning separators and `some tokRev` (collected token
characters, reversed) inside a token.  When a token is complete,
`path_to_modname` rewrites it in place and `kmod_module_new_from_name`
(with `alloc` deciding the `n`-th `calloc`) either appends the new
module or aborts the loop.  `strtok_r` overwrites the separator that
terminates a non-final token with NUL; separators that precede a token
are only skipped.  Returns the region's final buffer contents and the
loop outcome. -/
def depRun (alloc : Nat → Bool) (ctx : Nat) :
    CStr → Option CStr → Nat → List kmod_module → CStr × DepRes
  | [], none, n, acc => ([], .ok acc n)
  | [], some tokRev, n, acc =>
      let tok := tokRev.reverse
      match kmod_module_new_from_name (alloc n) (some ctx) (path_to_modname tok) with
      | .error e => (modnameXform tok, .fail acc e)
      | .ok m => (modnameXform tok, .ok (acc ++ [m]) (n + 1))
  | c :: rest, none, n, acc =>
      if isSep c then
        let r := depRun alloc ctx rest none n acc
        (c :: r.1, r.2)
      else depRun alloc ctx rest (some [c]) n acc
  | c :: rest, some tokRev, n, acc =>
      if isSep c then
        let tok := tokRev.reverse
        match kmod_module_new_from_name (alloc n) (some ctx) (path_to_modname tok) with
        | .error e => (modnameXform tok ++ NUL :: rest, .fail acc e)
        | .ok m =>
            let r := depRun alloc ctx rest none (n + 1) (acc ++ [m])
            (modnameXform tok ++ NUL :: r.1, r.2)
      else depRun alloc ctx rest (some (c :: tokRev)) n acc

/-- The token stream that the `strtok_r` loop sees, with the same
scanning state as `depRun`. -/
def tokRun : CStr → Option CStr → List CStr
  | [], none => []
  | [], some tokRev => [tokRev.reverse]
  | c :: rest, none =>
      if isSep c then tokRun rest none else tokRun rest (some [c])
  | c :: rest, some tokRev =>
      if isSep c then tokRev.reverse :: tokRun rest none
      else tokRun rest (some (c :: tokRev))

/-- Whitespace tokens of a string, in order (the `strtok_r(p, " \t")`
stream). -/
def tokenize (s : CStr) : List CStr := tokRun s none

/-- Token-level restatement of the dependency loop, used to relate
`depRun` to the token stream. -/
def depFold (alloc : Nat → Bool) (ctx : Nat) :
    List CStr → Nat → List kmod_module → DepRes
  | [], n, acc => .ok acc n
  | t :: ts, n, acc =>
      match kmod_module_new_from_name (alloc n) (some ctx) (path_to_modname t) with
      | .error e => .fail acc e
      | .ok m => depFold alloc ctx ts (n + 1) (acc ++ [m])

/-- The module that a successful `kmod_module_new_from_name` builds for
one dependency token, and the list of them for a token sequence. -/
def specDeps (ctx : Nat) (toks : List CStr) : List kmod_module :=
  toks.map (fun t => .mk ctx none (path_to_modname t) [] 1 false)

/-- Outcome of `kmod_module_new_from_name` for the token at position
`n`: `some e` when it fails with error `e`, `none` when it succeeds. -/
def constructErr (alloc : Nat → Bool) (ctx : Nat) (t : CStr) (n : Nat) : Option Int :=
  match kmod_module_new_from_name (alloc n) (some ctx) (path_to_modname t) with
  | .error e => some e
  | .ok _ => none

/-- Observable result of `kmod_module_parse_dep`: the module after the
call, the returned value, the handles passed to
`kmod_module_unref_list` on the failure path, and the final contents of
the caller's line buffer. -/
structure ParseDepOut where
  mod : kmod_module
  ret : Int
  released : List kmod_module
  buf : CStr

/-- `kmod_module_parse_dep` (lines 85-128).  `none` models the
`assert(!mod->init.dep && mod->dep == NULL)` firing.  Otherwise
`init.dep` is set, the first ':' located (no colon: return 0 with the
buffer untouched and no dependencies), the region after the colon is
tokenized and resolved by `depRun`; on success the accumulated list is
committed and the count returned, on failure the accumulated handles
are released, the guard reset and the error returned unchanged. -/
def kmod_module_parse_dep (alloc : Nat → Bool) (mod : kmod_module)
    (line : CStr) : Option ParseDepOut :=
  if mod.initDep || !mod.dep.isEmpty then none
  else
    match strchrColon line with
    | none => some ⟨.mk mod.ctx mod.path mod.name mod.dep mod.refcount true,
        0, [], line⟩
    | some region =>
        let pre := line.takeWhile (fun c => c ≠ ':')
        let r := depRun alloc mod.ctx region none 0 []
        match r.2 with
        | .ok list n => some ⟨.mk mod.ctx mod.path mod.name list mod.refcount true,
            (n : Int), [], pre ++ ':' :: r.1⟩
        | .fail rel e => some ⟨.mk mod.ctx mod.path mod.name mod.dep mod.refcount false,
            e, rel, pre ++ ':' :: r.1⟩

/-- Result left in `*list` by one alias lookup source together with its
return value: `out` is the list contents when the source returns
(possibly partial entries accumulated before an internal failure). -/
structure LookupSrc where
  ret : Int
  out : List kmod_module

/-- Observable result of `kmod_module_new_from_lookup`: return value,
final `*list` contents, number of sources invoked (the sources are
always consulted in the fixed order config, moddep, symbols, aliases,
so `invoked = k` means exactly sources `1..k` ran), and the entries
released by `kmod_module_unref_list` on the error path. -/
structure LookupRes where
  ret : Int
  list : List kmod_module
  invoked : Nat
  released : List kmod_module

/-- One expansion of the `CHECK_ERR_AND_FINISH` macro (lines 212-218)
after the `k`-th source ran: a negative return releases `*list` and
resets it to NULL (`fail` label, lines 250-253), a non-empty `*list`
returns it (`finish` label), otherwise the next source runs. -/
def lookupStep (s : LookupSrc) (k : Nat) (next : Unit → LookupRes) : LookupRes :=
  if s.ret < 0 then ⟨s.ret, [], k, s.out⟩
  else if s.out.isEmpty then next ()
  else ⟨s.ret, s.out, k, []⟩

/-- `kmod_module_new_from_lookup` (lines 220-254).  `s1`-`s4` are the
four lookup-source oracles in code order
(`kmod_lookup_alias_from_config`, `..._from_moddep_file`,
`..._from_symbols_file`, `..._from_aliases_file`); each receives
`*list` empty because its predecessors left it empty.  `listPtr` is the
`struct kmod_list **` argument: `none` is a NULL pointer, `some init`
points at a list with contents `init`. -/
def kmod_module_new_from_lookup (s1 s2 s3 s4 : LookupSrc) (ctx : Option Nat)
    (alias_ : Option CStr) (listPtr : Option (List kmod_module)) : LookupRes :=
  match ctx, alias_ with
  | some _, some _ =>
      match listPtr with
      | none => ⟨-ENOSYS, [], 0, []⟩
      | some init =>
          if !init.isEmpty then ⟨-ENOSYS, init, 0, []⟩
          else
            lookupStep s1 1 (fun _ =>
              lookupStep s2 2 (fun _ =>
                lookupStep s3 3 (fun _ =>
                  if s4.ret < 0 then ⟨s4.ret, [], 4, s4.out⟩
                  else ⟨s4.ret, s4.out, 4, []⟩)))
  | _, _ => ⟨-ENOENT, listPtr.getD [], 0, []⟩

/-- Recognized bits of `kmod_module_remove_module`'s flag mask.  The
`KMOD_REMOVE_FORCE`/`KMOD_REMOVE_NOWAIT` constants live in the header
`libkmod.h`, which is not part of this source; modelled from the spec
as two distinct flag bits. -/
def KMOD_REMOVE_FORCE : Nat := 1

/-- Companion bit of `KMOD_REMOVE_FORCE`, see there. -/
def KMOD_REMOVE_NOWAIT : Nat := 2

/-- `get_modname` (lines 77-83): the module name, derived from the path
on first use when unset.  (The C function also caches the derived name
in `mod->name`; only the value matters here.) -/
def get_modname (m : kmod_module) : Option CStr :=
  match m.name with
  | some n => some n
  | none =>
      match m.path with
      | some p => path_to_modname p
      | none => none

/-- `kmod_module_remove_module` (lines 297-318).  `deleteModule` is the
`delete_module` syscall oracle, applied to the derived name and the
masked flags. -/
def kmod_module_remove_module (deleteModule : Option CStr → Nat → Int)
    (mod : Option kmod_module) (flags : Nat) : Int :=
  match mod with
  | none => -ENOENT
  | some m =>
      let fl := flags &&& (KMOD_REMOVE_FORCE ||| KMOD_REMOVE_NOWAIT)
      let err := deleteModule (get_modname m) fl
      if err ≠ 0 then err else 0

/-- Environment of one `kmod_module_insert_module` call: outcome of
`open` (`some e`: fails with errno `e`), the size reported by `fstat`,
outcome of `mmap` (`some e`: `MAP_FAILED` with errno `e`), and the
return value of the `init_module` syscall. -/
structure InsertEnv where
  openErr : Option Int
  size : Nat
  mmapErr : Option Int
  initRet : Int

/-- Resource events of one `kmod_module_insert_module` call. -/
structure InsertTrace where
  opened : Bool
  closed : Bool
  mapped : Bool
  unmapped : Bool

/-- `kmod_module_insert_module` (lines 322-363): NULL module fails with
`-ENOENT`; a module without a path with `-ENOSYS`; a failed `open`
returns `-errno` (nothing acquired); a failed `mmap` closes the
descriptor and returns `-errno`; otherwise `init_module` runs and its
return value is returned after `munmap` and `close`.  The trace records
which resources were acquired and released. -/
def kmod_module_insert_module (env : InsertEnv) (mod : Option kmod_module)
    (flags : Nat) : Int × InsertTrace :=
  match mod with
  | none => (-ENOENT, ⟨false, false, false, false⟩)
  | some m =>
      match m.path with
      | none => (-ENOSYS, ⟨false, false, false, false⟩)
      | some _ =>
          match env.openErr with
          | some e => (-e, ⟨false, false, false, false⟩)
          | none =>
              match env.mmapErr with
              | some e => (-e, ⟨true, true, false, false⟩)
              | none => (env.initRet, ⟨true, true, true, true⟩)

/-- Values of `enum kmod_module_initstate`.  The enum lives in the
header `libkmod.h`, which is not part of this source; modelled from the
spec as four distinct non-negative codes in declaration order. -/
def KMOD_MODULE_BUILTIN : Int := 0

/-- Live state, see `KMOD_MODULE_BUILTIN`. -/
def KMOD_MODULE_LIVE : Int := 1

/-- Coming state, see `KMOD_MODULE_BUILTIN`. -/
def KMOD_MODULE_COMING : Int := 2

/-- Going state, see `KMOD_MODULE_BUILTIN`. -/
def KMOD_MODULE_GOING : Int := 3

/-- Environment of one `kmod_module_get_initstate` call.  `fileExists`
records whether `/sys/module/<name>/initstate` exists (not consulted by
the code, only used to state claims); `openErr` is the errno when
`open` fails; `parentIsDir` whether `stat("/sys/module/<name>")`
succeeds with a directory; `readRes` the outcome of `read_str_safe`
(its errors are the negative values it returns). -/
structure InitstateEnv where
  fileExists : Bool
  openErr : Option Int
  parentIsDir : Bool
  readRes : Except Int CStr

/-- `kmod_module_get_initstate` (lines 381-421).  When `open` fails the
candidate path is truncated back to `/sys/module/<name>` and a
directory there reports `KMOD_MODULE_BUILTIN`, otherwise `-errno` is
returned (the `pathlen > sizeof("/initstate") - 1` guard always holds
because the prefix `/sys/module/` alone is longer).  A successful read
is compared verbatim against `"live\n"`, `"coming\n"`, `"going\n"`;
anything else returns `-EINVAL`. -/
def kmod_module_get_initstate (env : InitstateEnv) (mod : kmod_module) : Int :=
  match env.openErr with
  | some e => if env.parentIsDir then KMOD_MODULE_BUILTIN else -e
  | none =>
      match env.readRes with
      | .error e => e
      | .ok buf =>
          if buf = toL "live\n" then KMOD_MODULE_LIVE
          else if buf = toL "coming\n" then KMOD_MODULE_COMING
          else if buf = toL "going\n" then KMOD_MODULE_GOING
          else -EINVAL

/-- The `.`/`..` skip of the enumeration loops (lines 472-476 and
535-539): `d_name[0]` is '.' and the name is exactly "." or "..". -/
def isDotEntry (e : CStr) : Bool :=
  match e with
  | ['.'] => true
  | ['.', '.'] => true
  | _ => false

/-- Entry loop of `kmod_module_get_holders` (lines 467-492): skip `.`
and `..`, construct a module for every other entry name, skip entries
whose construction fails, keep directory order.  `alloc` decides the
`calloc` inside `kmod_module_new_from_name` per entry.  (The
`kmod_list_append` container is an external collaborator assumed
allocation-safe, per the spec's scope.) -/
def holdersLoop (alloc : CStr → Bool) (ctx : Nat) : List CStr → List kmod_module
  | [] => []
  | e :: rest =>
      if isDotEntry e then holdersLoop alloc ctx rest
      else
        match kmod_module_new_from_name (alloc e) (some ctx) (some e) with
        | .error _ => holdersLoop alloc ctx rest
        | .ok h => h :: holdersLoop alloc ctx rest

/-- `kmod_module_get_holders` (lines 449-496).  `dir` is the `opendir`
outcome: `none` on failure, `some entries` the directory entries in
enumeration order.  NULL module and directory-open failure both return
NULL. -/
def kmod_module_get_holders (alloc : CStr → Bool) (mod : Option kmod_module)
    (dir : Option (List CStr)) : Option (List kmod_module) :=
  match mod with
  | none => none
  | some m =>
      match dir with
      | none => none
      | some entries => some (holdersLoop alloc m.ctx entries)

/-- `struct kmod_module_section` (lines 498-501). -/
structure kmod_module_section where
  address : Nat
  name : CStr

/-- One directory entry seen by `kmod_module_get_sections`: its name,
the `openat` outcome for it, and the `read_str_ulong` outcome (the
parsed base-16 address, or the negative error it returns). -/
structure SectionEntry where
  name : CStr
  openErr : Option Int
  readRes : Except Int Nat

/-- Entry loop of `kmod_module_get_sections` (lines 528-569): skip `.`
and `..`, skip entries whose `openat` or whose base-16 read fails, keep
a section record (address, name) for the rest in directory order. -/
def sectionsLoop : List SectionEntry → List kmod_module_section
  | [] => []
  | e :: rest =>
      if isDotEntry e.name then sectionsLoop rest
      else
        match e.openErr with
        | some _ => sectionsLoop rest
        | none =>
            match e.readRes with
            | .error _ => sectionsLoop rest
            | .ok a => ⟨a, e.name⟩ :: sectionsLoop rest

/-- `kmod_module_get_sections` (lines 508-573).  NULL module and
directory-open failure both return NULL. -/
def kmod_module_get_sections (mod : Option kmod_module)
    (dir : Option (List SectionEntry)) : Option (List kmod_module_section) :=
  match mod with
  | none => none
  | some _ =>
      match dir with
      | none => none
      | some entries => some (sectionsLoop entries)

/-- Boolean error test for a section read outcome. -/
def isErrRead : Except Int Nat → Bool
  | .error _ => true
  | .ok _ => false

/-- Membership in a `takeWhile` implies membership in the list. -/
theorem mem_of_mem_takeWhile {p : Char → Bool} :
    ∀ {l : CStr} {x : Char}, x ∈ l.takeWhile p → x ∈ l := by
  intro l
  induction l with
  | nil => intro x hx; simp [List.takeWhile] at hx
  | cons c rest ih =>
      intro x hx
      rw [List.takeWhile] at hx
      cases hp : p c with
      | false => rw [hp] at hx; simp at hx
      | true =>
          rw [hp] at hx
          rcases List.mem_cons.mp hx with h | h
          · exact h ▸ List.mem_cons_self c rest
          · exact List.mem_cons_of_mem c (ih h)

/-- A list whose characters are all different from '/' is its own
GNU basename. -/
theorem gnu_basename_of_no_slash {l : CStr} (h : ∀ c ∈ l, c ≠ '/') :
    gnu_basename l = l := by
  unfold gnu_basename
  rw [List.takeWhile_eq_self_iff.mpr]
  · exact List.reverse_reverse l
  · intro x hx
    simpa using h x (List.mem_reverse.mp hx)

/-- Shape of a successful `path_to_modname` result. -/
theorem path_to_modname_eq {p m : CStr} (h : path_to_modname p = some m) :
    gnu_basename p ≠ [] ∧
    m = ((gnu_basename p).takeWhile (fun c => c ≠ '.')).map
        (fun c => if c = '-' then '_' else c) := by
  unfold path_to_modname at h
  by_cases hb : gnu_basename p = []
  · simp [hb] at h
  · rw [if_neg hb] at h
    exact ⟨hb, (Option.some.inj h).symm⟩

/-- Claim C9, counterexample: the valid (non-empty-basename) path
`".ko"` canonicalizes to the empty name, and applying canonicalization
to that already-canonical name does not return it unchanged (it fails),
so idempotence as stated does not hold for every valid path. -/
theorem C9_counterexample :
    gnu_basename (toL ".ko") ≠ [] ∧
    path_to_modname (toL ".ko") = some [] ∧
    path_to_modname [] = none := by
  refine ⟨by decide, rfl, rfl⟩

/-- Claim C9, amended: for every path with a non-empty basename the
canonical module name contains no '-' and no '.', and canonicalization
is idempotent on every non-empty canonical name. -/
theorem C9_modname_canonical (p m : CStr) (hm : path_to_modname p = some m) :
    ('-' ∉ m ∧ '.' ∉ m) ∧ (m ≠ [] → path_to_modname m = some m) := by
  obtain ⟨-, hshape⟩ := path_to_modname_eq hm
  have hchars : ∀ x ∈ m, x ≠ '-' ∧ x ≠ '.' ∧ x ≠ '/' := by
    intro x hx
    rw [hshape] at hx
    obtain ⟨c, hc, hcx⟩ := List.mem_map.mp hx
    have hdot : c ≠ '.' := by simpa using List.mem_takeWhile_imp hc
    have hslash : c ≠ '/' := by
      have hcb : c ∈ gnu_basename p := mem_of_mem_takeWhile hc
      unfold gnu_basename at hcb
      have := List.mem_takeWhile_imp (List.mem_reverse.mp hcb)
      simpa using this
    subst hcx
    by_cases hcd : c = '-' <;> simp [hcd] <;> exact ⟨hdot, hslash⟩
  refine ⟨⟨fun h => ((hchars _ h).1 rfl).elim, fun h => ((hchars _ h).2.1 rfl).elim⟩, ?_⟩
  intro hne
  have hbase : gnu_basename m = m :=
    gnu_basename_of_no_slash (fun c hc => (hchars c hc).2.2)
  have htake : m.takeWhile (fun c => c ≠ '.') = m := by
    rw [List.takeWhile_eq_self_iff]
    intro x hx
    simpa using (hchars x hx).2.1
  have hmap : m.map (fun c => if c = '-' then '_' else c) = m := by
    have : ∀ c ∈ m, (if c = '-' then '_' else c) = c := by
      intro c hc
      rw [if_neg (hchars c hc).1]
    calc m.map (fun c => if c = '-' then '_' else c) = m.map id :=
          List.map_congr_left this
      _ = m := List.map_id m
  unfold path_to_modname
  rw [hbase, if_neg hne, htake, hmap]

/-- Claim C9, witness: the spec's own example path. -/
theorem C9_witness :
    path_to_modname (toL "/lib/modules/foo-bar.ko") = some (toL "foo_bar") ∧
    ('-' ∉ toL "foo_bar" ∧ '.' ∉ toL "foo_bar") ∧
    path_to_modname (toL "foo_bar") = some (toL "foo_bar") := by
  refine ⟨by decide,
    (C9_modname_canonical (toL "/lib/modules/foo-bar.ko") (toL "foo_bar") (by decide)).1,
    (C9_modname_canonical (toL "/lib/modules/foo-bar.ko") (toL "foo_bar") (by decide)).2
      (by decide)⟩

/-- Claim C1, counterexample: a NULL context makes
`kmod_module_new_from_name` fail, but with `-ENOENT` ("no such entry"),
which is not the InvalidArgument code `-EINVAL` the claim names; the
same holds for a NULL handle in `kmod_module_remove_module`. -/
theorem C1_counterexample :
    kmod_module_new_from_name true none (some (toL "x")) = .error (-ENOENT) ∧
    kmod_module_remove_module (fun _ _ => 0) none 0 = -ENOENT ∧
    -ENOENT ≠ -EINVAL := by
  refine ⟨rfl, rfl, by decide⟩

/-- Claim C1, amended: every call of `kmod_module_new_from_name` with a
NULL context or name, of `kmod_module_new_from_path` with a NULL
context or path, and of `kmod_module_remove_module` or
`kmod_module_insert_module` with a NULL handle fails with the
NoSuchEntry (`-ENOENT`) error code. -/
theorem C1_null_args_return_enoent :
    (∀ (a : Bool) (nm : CStr),
      kmod_module_new_from_name a none (some nm) = .error (-ENOENT)) ∧
    (∀ (a : Bool) (c : Nat),
      kmod_module_new_from_name a (some c) none = .error (-ENOENT)) ∧
    (∀ (a : Bool) (st : Option Int) (p : CStr),
      kmod_module_new_from_path a st none (some p) = .error (-ENOENT)) ∧
    (∀ (a : Bool) (st : Option Int) (c : Nat),
      kmod_module_new_from_path a st (some c) none = .error (-ENOENT)) ∧
    (∀ (del : Option CStr → Nat → Int) (fl : Nat),
      kmod_module_remove_module del none fl = -ENOENT) ∧
    (∀ (env : InsertEnv) (fl : Nat),
      (kmod_module_insert_module env none fl).1 = -ENOENT) := by
  exact ⟨fun _ _ => rfl, fun _ _ => rfl, fun _ _ _ => rfl, fun _ _ _ => rfl,
    fun _ _ => rfl, fun _ _ => rfl⟩

/-- Claim C2: construction by name or path yields refcount exactly 1;
`kmod_module_ref` on a non-NULL handle adds exactly 1 and returns the
same handle (all other fields unchanged); `kmod_module_unref` on a
non-NULL handle subtracts exactly 1; the handle is destroyed exactly
when the refcount goes from 1 to 0, and destruction releases the
dependency list, the context reference and the owned strings; both are
no-ops on NULL. -/
theorem C2_refcount_lifecycle :
    (∀ (a : Bool) (c : Nat) (nm : CStr) (m : kmod_module),
      kmod_module_new_from_name a (some c) (some nm) = .ok m → m.refcount = 1) ∧
    (∀ (a : Bool) (se : Option Int) (c : Nat) (p : CStr) (m : kmod_module),
      kmod_module_new_from_path a se (some c) (some p) = .ok m → m.refcount = 1) ∧
    (∀ m : kmod_module, kmod_module_ref (some m) =
      some (.mk m.ctx m.path m.name m.dep (m.refcount + 1) m.initDep)) ∧
    (kmod_module_ref none = none ∧ kmod_module_unref none = (none, none)) ∧
    (∀ m : kmod_module, 1 < m.refcount →
      kmod_module_unref (some m) =
        (some (.mk m.ctx m.path m.name m.dep (m.refcount - 1) m.initDep), none)) ∧
    (∀ m : kmod_module, m.refcount = 1 →
      kmod_module_unref (some m) = (none, some ⟨m.dep, m.ctx, m.path, m.name⟩)) ∧
    (∀ m : kmod_module, 1 ≤ m.refcount →
      ((kmod_module_unref (some m)).2.isSome ↔ m.refcount = 1)) := by
  refine ⟨?_, ?_, fun _ => rfl, ⟨rfl, rfl⟩, ?_, ?_, ?_⟩
  · intro a c nm m h
    cases a
    · simp [kmod_module_new_from_name] at h
    · simp only [kmod_module_new_from_name, if_true] at h
      cases h
      rfl
  · intro a se c p m h
    cases se
    · cases a
      · simp [kmod_module_new_from_path] at h
      · simp only [kmod_module_new_from_path, if_true] at h
        cases h
        rfl
    · simp [kmod_module_new_from_path] at h
  · intro m h
    simp only [kmod_module_unref]
    rw [if_pos (by omega)]
  · intro m h
    simp only [kmod_module_unref]
    rw [if_neg (by omega)]
  · intro m h
    simp only [kmod_module_unref]
    by_cases hr : m.refcount - 1 > 0
    · rw [if_pos hr]
      simp only [Option.isSome_none, Bool.false_eq_true, false_iff]
      omega
    · rw [if_neg hr]
      simp only [Option.isSome_some, true_iff]
      omega

/-- Claim C2, witness: a freshly constructed module has refcount 1,
unref at refcount 2 only decrements, unref at refcount 1 destroys and
releases the dependency list, context reference and owned strings. -/
theorem C2_witness :
    (kmod_module.mk 7 none (some (toL "a")) [] 1 false).refcount = 1 ∧
    kmod_module_unref (some (.mk 7 none (some (toL "a")) [] 2 false)) =
      (some (.mk 7 none (some (toL "a")) [] 1 false), none) ∧
    kmod_module_unref (some (.mk 7 none (some (toL "a")) [] 1 false)) =
      (none, some ⟨[], 7, none, some (toL "a")⟩) := by
  refine ⟨C2_refcount_lifecycle.1 true 7 (toL "a") _ rfl, ?_, ?_⟩
  · exact C2_refcount_lifecycle.2.2.2.2.1 (.mk 7 none (some (toL "a")) [] 2 false)
      (by decide)
  · exact C2_refcount_lifecycle.2.2.2.2.2.1 (.mk 7 none (some (toL "a")) [] 1 false)
      (by decide)

/-- Claim C6: on every exit path of `kmod_module_insert_module` that
opened the file descriptor, the descriptor is closed before returning,
and on every exit path that created the memory mapping, the region is
unmapped before returning — for every environment, including a failing
`init_module`. -/
theorem C6_insert_cleanup (env : InsertEnv) (mod : Option kmod_module) (fl : Nat) :
    ((kmod_module_insert_module env mod fl).2.opened = true →
      (kmod_module_insert_module env mod fl).2.closed = true) ∧
    ((kmod_module_insert_module env mod fl).2.mapped = true →
      (kmod_module_insert_module env mod fl).2.unmapped = true) := by
  cases mod with
  | none => simp [kmod_module_insert_module]
  | some m =>
      cases hp : m.path with
      | none => simp [kmod_module_insert_module, hp]
      | some q =>
          cases ho : env.openErr with
          | some e => simp [kmod_module_insert_module, hp, ho]
          | none =>
              cases hm : env.mmapErr with
              | some e => simp [kmod_module_insert_module, hp, ho, hm]
              | none => simp [kmod_module_insert_module, hp, ho, hm]

/-- Claim C6, witness: with a successful open and mmap and a failing
kernel insertion, the descriptor is still closed and the region still
unmapped. -/
theorem C6_witness :
    (kmod_module_insert_module ⟨none, 4, none, -5⟩
      (some (.mk 7 (some (toL "/a.ko")) none [] 1 false)) 0).2.closed = true ∧
    (kmod_module_insert_module ⟨none, 4, none, -5⟩
      (some (.mk 7 (some (toL "/a.ko")) none [] 1 false)) 0).2.unmapped = true := by
  refine ⟨(C6_insert_cleanup ⟨none, 4, none, -5⟩
      (some (.mk 7 (some (toL "/a.ko")) none [] 1 false)) 0).1 (by decide),
    (C6_insert_cleanup ⟨none, 4, none, -5⟩
      (some (.mk 7 (some (toL "/a.ko")) none [] 1 false)) 0).2 (by decide)⟩

/-- Claim C5: the four alias sources are consulted in fixed order; the
first source that errors aborts the lookup (partial entries released,
output reset, error propagated, later sources not invoked); the first
source that produces a non-empty list ends the lookup with that list;
four empty successes yield an empty list with a non-negative status;
and a non-empty caller list fails with `-ENOSYS` (NotSupported) before
any source runs. -/
theorem C5_lookup_priority (s1 s2 s3 s4 : LookupSrc) (c : Nat) (al : CStr) :
    (∀ init : List kmod_module, init ≠ [] →
      kmod_module_new_from_lookup s1 s2 s3 s4 (some c) (some al) (some init) =
        ⟨-ENOSYS, init, 0, []⟩) ∧
    (s1.ret < 0 →
      kmod_module_new_from_lookup s1 s2 s3 s4 (some c) (some al) (some []) =
        ⟨s1.ret, [], 1, s1.out⟩) ∧
    (0 ≤ s1.ret → s1.out ≠ [] →
      kmod_module_new_from_lookup s1 s2 s3 s4 (some c) (some al) (some []) =
        ⟨s1.ret, s1.out, 1, []⟩) ∧
    (0 ≤ s1.ret → s1.out = [] → s2.ret < 0 →
      kmod_module_new_from_lookup s1 s2 s3 s4 (some c) (some al) (some []) =
        ⟨s2.ret, [], 2, s2.out⟩) ∧
    (0 ≤ s1.ret → s1.out = [] → 0 ≤ s2.ret → s2.out ≠ [] →
      kmod_module_new_from_lookup s1 s2 s3 s4 (some c) (some al) (some []) =
        ⟨s2.ret, s2.out, 2, []⟩) ∧
    (0 ≤ s1.ret → s1.out = [] → 0 ≤ s2.ret → s2.out = [] → s3.ret < 0 →
      kmod_module_new_from_lookup s1 s2 s3 s4 (some c) (some al) (some []) =
        ⟨s3.ret, [], 3, s3.out⟩) ∧
    (0 ≤ s1.ret → s1.out = [] → 0 ≤ s2.ret → s2.out = [] → 0 ≤ s3.ret →
      s3.out ≠ [] →
      kmod_module_new_from_lookup s1 s2 s3 s4 (some c) (some al) (some []) =
        ⟨s3.ret, s3.out, 3, []⟩) ∧
    (0 ≤ s1.ret → s1.out = [] → 0 ≤ s2.ret → s2.out = [] → 0 ≤ s3.ret →
      s3.out = [] → s4.ret < 0 →
      kmod_module_new_from_lookup s1 s2 s3 s4 (some c) (some al) (some []) =
        ⟨s4.ret, [], 4, s4.out⟩) ∧
    (0 ≤ s1.ret → s1.out = [] → 0 ≤ s2.ret → s2.out = [] → 0 ≤ s3.ret →
      s3.out = [] → 0 ≤ s4.ret →
      kmod_module_new_from_lookup s1 s2 s3 s4 (some c) (some al) (some []) =
        ⟨s4.ret, s4.out, 4, []⟩) := by
  refine ⟨?_, ?_, ?_, ?_, ?_, ?_, ?_, ?_, ?_⟩
  · intro init hinit
    simp only [kmod_module_new_from_lookup]
    rw [if_pos (by simpa [List.isEmpty_iff] using hinit)]
  · intro h1
    simp [kmod_module_new_from_lookup, lookupStep, if_pos h1]
  · intro h1 h1o
    simp only [kmod_module_new_from_lookup, lookupStep, List.isEmpty_nil,
      Bool.not_true, if_neg (by decide : ¬(false = true))]
    rw [if_neg (by omega), if_neg (by simpa [List.isEmpty_iff] using h1o)]
  · intro h1 h1o h2
    simp only [kmod_module_new_from_lookup, lookupStep, List.isEmpty_nil,
      Bool.not_true, if_neg (by decide : ¬(false = true))]
    rw [if_neg (by omega), if_pos (by simpa [List.isEmpty_iff] using h1o),
      if_pos h2]
  · intro h1 h1o h2 h2o
    simp only [kmod_module_new_from_lookup, lookupStep, List.isEmpty_nil,
      Bool.not_true, if_neg (by decide : ¬(false = true))]
    rw [if_neg (by omega), if_pos (by simpa [List.isEmpty_iff] using h1o),
      if_neg (by omega), if_neg (by simpa [List.isEmpty_iff] using h2o)]
  · intro h1 h1o h2 h2o h3
    simp only [kmod_module_new_from_lookup, lookupStep, List.isEmpty_nil,
      Bool.not_true, if_neg (by decide : ¬(false = true))]
    rw [if_neg (by omega), if_pos (by simpa [List.isEmpty_iff] using h1o),
      if_neg (by omega), if_pos (by simpa [List.isEmpty_iff] using h2o),
      if_pos h3]
  · intro h1 h1o h2 h2o h3 h3o
    simp only [kmod_module_new_from_lookup, lookupStep, List.isEmpty_nil,
      Bool.not_true, if_neg (by decide : ¬(false = true))]
    rw [if_neg (by omega), if_pos (by simpa [List.isEmpty_iff] using h1o),
      if_neg (by omega), if_pos (by simpa [List.isEmpty_iff] using h2o),
      if_neg (by omega), if_neg (by simpa [List.isEmpty_iff] using h3o)]
  · intro h1 h1o h2 h2o h3 h3o h4
    simp only [kmod_module_new_from_lookup, lookupStep, List.isEmpty_nil,
      Bool.not_true, if_neg (by decide : ¬(false = true))]
    rw [if_neg (by omega), if_pos (by simpa [List.isEmpty_iff] using h1o),
      if_neg (by omega), if_pos (by simpa [List.isEmpty_iff] using h2o),
      if_neg (by omega), if_pos (by simpa [List.isEmpty_iff] using h3o),
      if_pos h4]
  · intro h1 h1o h2 h2o h3 h3o h4
    simp only [kmod_module_new_from_lookup, lookupStep, List.isEmpty_nil,
      Bool.not_true, if_neg (by decide : ¬(false = true))]
    rw [if_neg (by omega), if_pos (by simpa [List.isEmpty_iff] using h1o),
      if_neg (by omega), if_pos (by simpa [List.isEmpty_iff] using h2o),
      if_neg (by omega), if_pos (by simpa [List.isEmpty_iff] using h3o),
      if_neg (by omega)]

/-- Claim C5, witness: three empty successful sources followed by a
source with two entries yield those two entries after all four sources
ran, and a non-empty caller list is rejected with `-ENOSYS` with no
source invoked. -/
theorem C5_witness :
    kmod_module_new_from_lookup ⟨0, []⟩ ⟨0, []⟩ ⟨0, []⟩
      ⟨2, [.mk 7 none (some (toL "a")) [] 1 false,
           .mk 7 none (some (toL "b")) [] 1 false]⟩
      (some 7) (some (toL "x")) (some []) =
      ⟨2, [.mk 7 none (some (toL "a")) [] 1 false,
           .mk 7 none (some (toL "b")) [] 1 false], 4, []⟩ ∧
    kmod_module_new_from_lookup ⟨0, []⟩ ⟨0, []⟩ ⟨0, []⟩ ⟨0, []⟩
      (some 7) (some (toL "x"))
      (some [.mk 7 none (some (toL "c")) [] 1 false]) =
      ⟨-ENOSYS, [.mk 7 none (some (toL "c")) [] 1 false], 0, []⟩ := by
  refine ⟨(C5_lookup_priority ⟨0, []⟩ ⟨0, []⟩ ⟨0, []⟩
      ⟨2, [.mk 7 none (some (toL "a")) [] 1 false,
           .mk 7 none (some (toL "b")) [] 1 false]⟩ 7
      (toL "x")).2.2.2.2.2.2.2.2 (by decide) rfl (by decide) rfl (by decide)
      rfl (by decide),
    (C5_lookup_priority ⟨0, []⟩ ⟨0, []⟩ ⟨0, []⟩ ⟨0, []⟩ 7 (toL "x")).1
      [.mk 7 none (some (toL "c")) [] 1 false] (by simp)⟩

/-- Claim C7, counterexample: when the initstate file exists but `open`
fails for a different reason (here `EACCES`) while `/sys/module/<name>`
is a directory, the code still reports `KMOD_MODULE_BUILTIN`, so
"Builtin exactly when the file does not exist and the parent is a
directory" is false — any open failure triggers the builtin check. -/
theorem C7_counterexample :
    kmod_module_get_initstate ⟨true, some EACCES, true, .ok []⟩
      (.mk 7 none (some (toL "m")) [] 1 false) = KMOD_MODULE_BUILTIN ∧
    (⟨true, some EACCES, true, .ok []⟩ : InitstateEnv).fileExists = true ∧
    ((⟨true, some EACCES, true, .ok []⟩ : InitstateEnv).fileExists = false ↔
      (⟨true, some EACCES, true, .ok []⟩ : InitstateEnv).openErr = some ENOENT) := by
  refine ⟨rfl, rfl, by decide⟩

/-- Claim C7, amended: `kmod_module_get_initstate` reports Builtin
exactly when opening the initstate file fails (for any reason, not only
non-existence) and `/sys/module/<name>` is a directory; a successful
read reports Live, Coming, Going for contents exactly `"live\n"`,
`"coming\n"`, `"going\n"`, and any other content is reported as
`-EINVAL`, distinct from propagated I/O errors, which are negative
`-errno`/read codes. -/
theorem C7_initstate (env : InitstateEnv) (m : kmod_module)
    (hopen : ∀ e, env.openErr = some e → 0 < e)
    (hread : ∀ e, env.readRes = .error e → e < 0) :
    (kmod_module_get_initstate env m = KMOD_MODULE_BUILTIN ↔
      (env.openErr ≠ none ∧ env.parentIsDir = true)) ∧
    (env.openErr = none → ∀ buf, env.readRes = .ok buf →
      ((buf = toL "live\n" →
          kmod_module_get_initstate env m = KMOD_MODULE_LIVE) ∧
       (buf = toL "coming\n" →
          kmod_module_get_initstate env m = KMOD_MODULE_COMING) ∧
       (buf = toL "going\n" →
          kmod_module_get_initstate env m = KMOD_MODULE_GOING) ∧
       (buf ≠ toL "live\n" → buf ≠ toL "coming\n" → buf ≠ toL "going\n" →
          kmod_module_get_initstate env m = -EINVAL))) := by
  constructor
  · cases ho : env.openErr with
    | some e =>
        have he : 0 < e := hopen e ho
        cases hd : env.parentIsDir with
        | true => simp [kmod_module_get_initstate, ho, hd, KMOD_MODULE_BUILTIN]
        | false =>
            simp only [kmod_module_get_initstate, ho, hd, Bool.false_eq_true,
              if_neg (by decide : ¬False)]
            constructor
            · intro hcontra
              exact absurd hcontra (by simp [KMOD_MODULE_BUILTIN]; omega)
            · rintro ⟨-, h⟩
              exact absurd h (by decide)
    | none =>
        simp only [kmod_module_get_initstate, ho, ne_eq, not_true_eq_false,
          false_and, iff_false]
        cases hr : env.readRes with
        | error e =>
            have := hread e hr
            simp [KMOD_MODULE_BUILTIN]
            omega
        | ok buf =>
            by_cases h1 : buf = toL "live\n"
            · simp [h1, KMOD_MODULE_LIVE, KMOD_MODULE_BUILTIN]
            · by_cases h2 : buf = toL "coming\n"
              · simp [h1, h2, KMOD_MODULE_COMING, KMOD_MODULE_BUILTIN]
                decide
              · by_cases h3 : buf = toL "going\n"
                · simp [h1, h2, h3, KMOD_MODULE_GOING, KMOD_MODULE_BUILTIN]
                  decide
                · simp [h1, h2, h3, EINVAL, KMOD_MODULE_BUILTIN]
  · intro ho buf hr
    refine ⟨?_, ?_, ?_, ?_⟩
    · intro h1
      simp [kmod_module_get_initstate, ho, hr, h1]
    · intro h2
      by_cases h1 : buf = toL "live\n"
      · rw [h1] at h2
        exact absurd h2 (by decide)
      · simp [kmod_module_get_initstate, ho, hr, h1, h2]
        decide
    · intro h3
      by_cases h1 : buf = toL "live\n"
      · rw [h1] at h3
        exact absurd h3 (by decide)
      · by_cases h2 : buf = toL "coming\n"
        · rw [h2] at h3
          exact absurd h3 (by decide)
        · simp [kmod_module_get_initstate, ho, hr, h1, h2, h3]
          decide
    · intro h1 h2 h3
      simp [kmod_module_get_initstate, ho, hr, h1, h2, h3]

/-- Claim C7, witness: a missing initstate file below an existing
module directory reports Builtin; content `"live\n"` reports Live;
unknown content reports `-EINVAL`. -/
theorem C7_witness :
    kmod_module_get_initstate ⟨false, some ENOENT, true, .ok []⟩
      (.mk 7 none (some (toL "m")) [] 1 false) = KMOD_MODULE_BUILTIN ∧
    kmod_module_get_initstate ⟨true, none, true, .ok (toL "live\n")⟩
      (.mk 7 none (some (toL "m")) [] 1 false) = KMOD_MODULE_LIVE ∧
    kmod_module_get_initstate ⟨true, none, true, .ok (toL "alive\n")⟩
      (.mk 7 none (some (toL "m")) [] 1 false) = -EINVAL := by
  refine ⟨(C7_initstate ⟨false, some ENOENT, true, .ok []⟩
      (.mk 7 none (some (toL "m")) [] 1 false)
      (fun e h => by injection h with h2; rw [← h2]; decide)
      (fun e h => by cases h)).1.mpr ⟨by decide, rfl⟩,
    ((C7_initstate ⟨true, none, true, .ok (toL "live\n")⟩
      (.mk 7 none (some (toL "m")) [] 1 false)
      (fun e h => by cases h) (fun e h => by cases h)).2 rfl (toL "live\n")
      rfl).1 rfl,
    ((C7_initstate ⟨true, none, true, .ok (toL "alive\n")⟩
      (.mk 7 none (some (toL "m")) [] 1 false)
      (fun e h => by cases h) (fun e h => by cases h)).2 rfl (toL "alive\n")
      rfl).2.2.2 (by decide) (by decide) (by decide)⟩

/-- A failed entry in the holders loop is skipped and the rest of the
entries processed unchanged. -/
theorem holdersLoop_skip (alloc : CStr → Bool) (ctx : Nat) (bad : CStr)
    (hbad : alloc bad = false) :
    ∀ pre post : List CStr,
      holdersLoop alloc ctx (pre ++ bad :: post) = holdersLoop alloc ctx (pre ++ post) := by
  intro pre
  induction pre with
  | nil =>
      intro post
      simp only [List.nil_append]
      by_cases hd : isDotEntry bad = true
      · simp [holdersLoop, hd]
      · simp [holdersLoop, hd, kmod_module_new_from_name, hbad, ENOMEM]
  | cons e rest ih =>
      intro post
      by_cases hd : isDotEntry e = true
      · simp [holdersLoop, hd, ih post]
      · cases hcon : kmod_module_new_from_name (alloc e) (some ctx) (some e) with
        | error err => simp [holdersLoop, hd, hcon, ih post]
        | ok h => simp [holdersLoop, hd, hcon, ih post]

/-- On all-good entries the holders loop is a map in directory order. -/
theorem holdersLoop_map (alloc : CStr → Bool) (ctx : Nat) :
    ∀ entries : List CStr,
      (∀ e ∈ entries, isDotEntry e = false ∧ alloc e = true) →
      holdersLoop alloc ctx entries =
        entries.map (fun e => .mk ctx none (some e) [] 1 false) := by
  intro entries
  induction entries with
  | nil => intro _; simp [holdersLoop]
  | cons e rest ih =>
      intro h
      obtain ⟨hdot, hall⟩ := h e (List.mem_cons_self e rest)
      simp [holdersLoop, hdot, hall, kmod_module_new_from_name,
        ih (fun x hx => h x (List.mem_cons_of_mem e hx))]

/-- A failed entry in the sections loop is skipped and the rest of the
entries processed unchanged. -/
theorem sectionsLoop_skip (bad : SectionEntry)
    (hbad : (bad.openErr.isSome || isErrRead bad.readRes) = true) :
    ∀ pre post : List SectionEntry,
      sectionsLoop (pre ++ bad :: post) = sectionsLoop (pre ++ post) := by
  intro pre
  induction pre with
  | nil =>
      intro post
      simp only [List.nil_append]
      by_cases hd : isDotEntry bad.name = true
      · simp [sectionsLoop, hd]
      · cases ho : bad.openErr with
        | some e => simp [sectionsLoop, hd, ho]
        | none =>
            cases hr : bad.readRes with
            | error e => simp [sectionsLoop, hd, ho, hr]
            | ok a => simp [ho, isErrRead, hr] at hbad
  | cons e rest ih =>
      intro post
      by_cases hd : isDotEntry e.name = true
      · simp [sectionsLoop, hd, ih post]
      · cases ho : e.openErr with
        | some v => simp [sectionsLoop, hd, ho, ih post]
        | none =>
            cases hr : e.readRes with
            | error v => simp [sectionsLoop, hd, ho, hr, ih post]
            | ok a => simp [sectionsLoop, hd, ho, hr, ih post]

/-- On all-good entries the sections loop records every (address, name)
pair in directory order. -/
theorem sectionsLoop_map :
    ∀ l : List (CStr × Nat),
      (∀ p ∈ l, isDotEntry p.1 = false) →
      sectionsLoop (l.map (fun p => ⟨p.1, none, .ok p.2⟩)) =
        l.map (fun p => ⟨p.2, p.1⟩) := by
  intro l
  induction l with
  | nil => intro _; simp [sectionsLoop]
  | cons p rest ih =>
      intro h
      have hdot := h p (List.mem_cons_self p rest)
      simp [sectionsLoop, hdot, ih (fun x hx => h x (List.mem_cons_of_mem p hx))]

/-- Claim C8: for holders and sections enumeration, a failure to
process one directory entry (handle-construction failure for a holder;
open or base-16 read failure for a section) skips only that entry while
all remaining entries are still enumerated in directory order, and a
failure to open the enumerated directory itself yields the NULL result
for the whole call. -/
theorem C8_enumeration_skip :
    (∀ (alloc : CStr → Bool) (m : kmod_module) (pre post : List CStr) (bad : CStr),
      alloc bad = false →
      kmod_module_get_holders alloc (some m) (some (pre ++ bad :: post)) =
        kmod_module_get_holders alloc (some m) (some (pre ++ post))) ∧
    (∀ (alloc : CStr → Bool) (m : kmod_module) (entries : List CStr),
      (∀ e ∈ entries, isDotEntry e = false ∧ alloc e = true) →
      kmod_module_get_holders alloc (some m) (some entries) =
        some (entries.map (fun e => .mk m.ctx none (some e) [] 1 false))) ∧
    (∀ (alloc : CStr → Bool) (m : kmod_module),
      kmod_module_get_holders alloc (some m) none = none) ∧
    (∀ (m : kmod_module) (pre post : List SectionEntry) (bad : SectionEntry),
      (bad.openErr.isSome || isErrRead bad.readRes) = true →
      kmod_module_get_sections (some m) (some (pre ++ bad :: post)) =
        kmod_module_get_sections (some m) (some (pre ++ post))) ∧
    (∀ (m : kmod_module) (l : List (CStr × Nat)),
      (∀ p ∈ l, isDotEntry p.1 = false) →
      kmod_module_get_sections (some m)
          (some (l.map (fun p => ⟨p.1, none, .ok p.2⟩))) =
        some (l.map (fun p => ⟨p.2, p.1⟩))) ∧
    (∀ m : kmod_module, kmod_module_get_sections (some m) none = none) := by
  refine ⟨?_, ?_, fun _ _ => rfl, ?_, ?_, fun _ => rfl⟩
  · intro alloc m pre post bad hbad
    simp only [kmod_module_get_holders]
    rw [holdersLoop_skip alloc m.ctx bad hbad pre post]
  · intro alloc m entries h
    simp only [kmod_module_get_holders]
    rw [holdersLoop_map alloc m.ctx entries h]
  · intro m pre post bad hbad
    simp only [kmod_module_get_sections]
    rw [sectionsLoop_skip bad hbad pre post]
  · intro m l h
    simp only [kmod_module_get_sections]
    rw [sectionsLoop_map l h]

/-- Claim C8, witness: one failing entry among three still yields the
other two in directory order, for holders and for sections. -/
theorem C8_witness :
    kmod_module_get_holders (fun e => !(e = toL "b" : Bool))
      (some (.mk 7 none (some (toL "m")) [] 1 false))
      (some [toL "a", toL "b", toL "c"]) =
      kmod_module_get_holders (fun e => !(e = toL "b" : Bool))
        (some (.mk 7 none (some (toL "m")) [] 1 false))
        (some [toL "a", toL "c"]) ∧
    kmod_module_get_sections (some (.mk 7 none (some (toL "m")) [] 1 false))
      (some [⟨toL "s1", none, .ok 16⟩, ⟨toL "s2", some EACCES, .error (-EACCES)⟩,
             ⟨toL "s3", none, .ok 32⟩]) =
      kmod_module_get_sections (some (.mk 7 none (some (toL "m")) [] 1 false))
        (some [⟨toL "s1", none, .ok 16⟩, ⟨toL "s3", none, .ok 32⟩]) := by
  refine ⟨C8_enumeration_skip.1 (fun e => !(e = toL "b" : Bool))
      (.mk 7 none (some (toL "m")) [] 1 false) [toL "a"] [toL "c"] (toL "b")
      (by decide),
    C8_enumeration_skip.2.2.2.1 (.mk 7 none (some (toL "m")) [] 1 false)
      [⟨toL "s1", none, .ok 16⟩] [⟨toL "s3", none, .ok 32⟩]
      ⟨toL "s2", some EACCES, .error (-EACCES)⟩ (by decide)⟩

/-- The loop outcome of `depRun` depends only on the token stream: it
equals the token-level fold over `tokRun`. -/
theorem depRun_snd (alloc : Nat → Bool) (ctx : Nat) :
    ∀ (s : CStr) (st : Option CStr) (n : Nat) (acc : List kmod_module),
      (depRun alloc ctx s st n acc).2 = depFold alloc ctx (tokRun s st) n acc := by
  intro s
  induction s with
  | nil =>
      intro st n acc
      cases st with
      | none => simp [depRun, tokRun, depFold]
      | some tokRev =>
          cases hcon : kmod_module_new_from_name (alloc n) (some ctx)
              (path_to_modname tokRev.reverse) with
          | error e => simp [depRun, tokRun, depFold, hcon]
          | ok m => simp [depRun, tokRun, depFold, hcon]
  | cons c rest ih =>
      intro st n acc
      cases st with
      | none =>
          cases hc : isSep c with
          | true => simp [depRun, tokRun, hc, ih]
          | false => simp [depRun, tokRun, hc, ih]
      | some tokRev =>
          cases hc : isSep c with
          | false => simp [depRun, tokRun, hc, ih]
          | true =>
              cases hcon : kmod_module_new_from_name (alloc n) (some ctx)
                  (path_to_modname tokRev.reverse) with
              | error e => simp [depRun, tokRun, depFold, hc, hcon]
              | ok m => simp [depRun, tokRun, depFold, hc, hcon, ih]

/-- When every construction up to the end of the token list succeeds,
the fold commits all of them in token order. -/
theorem depFold_ok (alloc : Nat → Bool) (ctx : Nat) :
    ∀ (toks : List CStr) (n : Nat) (acc : List kmod_module),
      (∀ j, j < toks.length → constructErr alloc ctx (toks.getD j []) (n + j) = none) →
      depFold alloc ctx toks n acc =
        .ok (acc ++ specDeps ctx toks) (n + toks.length) := by
  intro toks
  induction toks with
  | nil => intro n acc _; simp [depFold, specDeps]
  | cons t ts ih =>
      intro n acc h
      have h0 : constructErr alloc ctx t n = none := by
        simpa using h 0 (by simp)
      unfold constructErr at h0
      cases hcon : kmod_module_new_from_name (alloc n) (some ctx)
          (path_to_modname t) with
      | error e => rw [hcon] at h0; simp at h0
      | ok m =>
          have hm : m = .mk ctx none (path_to_modname t) [] 1 false := by
            cases hptm : path_to_modname t with
            | none => rw [hptm] at hcon; simp [kmod_module_new_from_name] at hcon
            | some nm =>
                rw [hptm] at hcon
                cases ha : alloc n with
                | false => rw [ha] at hcon; simp [kmod_module_new_from_name] at hcon
                | true =>
                    rw [ha] at hcon
                    simp only [kmod_module_new_from_name, if_true] at hcon
                    exact (Except.ok.inj hcon).symm
          have hrec := ih (n + 1) (acc ++ [m]) (by
            intro j hj
            have := h (j + 1) (by simpa using Nat.succ_lt_succ hj)
            simpa [Nat.add_assoc, Nat.add_comm 1 j] using this)
          simp only [depFold, hcon, hrec]
          congr 1
          · rw [hm]
            simp [specDeps]
          · simp [Nat.add_comm, Nat.add_assoc, Nat.add_left_comm]
  
/-- When the `k`-th construction is the first to fail, the fold aborts
with that error and the first `k` committed handles as the released
list. -/
theorem depFold_fail (alloc : Nat → Bool) (ctx : Nat) :
    ∀ (toks : List CStr) (k : Nat) (e : Int) (n : Nat) (acc : List kmod_module),
      k < toks.length →
      (∀ j, j < k → constructErr alloc ctx (toks.getD j []) (n + j) = none) →
      constructErr alloc ctx (toks.getD k []) (n + k) = some e →
      depFold alloc ctx toks n acc =
        .fail (acc ++ specDeps ctx (toks.take k)) e := by
  intro toks
  induction toks with
  | nil => intro k e n acc hk; simp at hk
  | cons t ts ih =>
      intro k e n acc hk hok hfail
      cases k with
      | zero =>
          simp only [List.getD_cons_zero, Nat.add_zero] at hfail
          unfold constructErr at hfail
          cases hcon : kmod_module_new_from_name (alloc n) (some ctx)
              (path_to_modname t) with
          | error e2 =>
              rw [hcon] at hfail
              simp only [Option.some.injEq] at hfail
              simp [depFold, hcon, hfail, specDeps]
          | ok m => rw [hcon] at hfail; simp at hfail
      | succ k2 =>
          have h0 : constructErr alloc ctx t n = none := by
            simpa using hok 0 (Nat.succ_pos k2)
          unfold constructErr at h0
          cases hcon : kmod_module_new_from_name (alloc n) (some ctx)
              (path_to_modname t) with
          | error e2 => rw [hcon] at h0; simp at h0
          | ok m =>
              have hm : m = .mk ctx none (path_to_modname t) [] 1 false := by
                cases hptm : path_to_modname t with
                | none =>
                    rw [hptm] at hcon
                    simp [kmod_module_new_from_name] at hcon
                | some nm =>
                    rw [hptm] at hcon
                    cases ha : alloc n with
                    | false =>
                        rw [ha] at hcon
                        simp [kmod_module_new_from_name] at hcon
                    | true =>
                        rw [ha] at hcon
                        simp only [kmod_module_new_from_name, if_true] at hcon
                        exact (Except.ok.inj hcon).symm
              have hrec := ih k2 e (n + 1) (acc ++ [m]) (by simpa using hk)
                (by
                  intro j hj
                  have := hok (j + 1) (Nat.succ_lt_succ hj)
                  simpa [Nat.add_assoc, Nat.add_comm 1 j] using this)
                (by
                  have := hfail
                  simpa [Nat.add_assoc, Nat.add_comm 1 k2] using this)
              simp only [depFold, hcon, hrec]
              congr 1
              rw [hm]
              simp [specDeps, List.take_succ_cons]

/-- Claim C3: for a handle in the not-started state, if constructing
the `k`-th dependency handle fails while the earlier ones succeed, then
`kmod_module_parse_dep` releases exactly the already-accumulated
handles (each of which is destroyed by its unref, having refcount 1),
resets the guard and leaves the dependency list absent (the module is
exactly as before, so a retry is possible), and returns the failure
code unchanged. -/
theorem C3_parse_dep_rollback (alloc : Nat → Bool) (mod : kmod_module)
    (line region : CStr) (k : Nat) (e : Int)
    (hg : mod.initDep = false) (hd : mod.dep = [])
    (hc : strchrColon line = some region)
    (hk : k < (tokenize region).length)
    (hok : ∀ j, j < k →
      constructErr alloc mod.ctx ((tokenize region).getD j []) j = none)
    (hfail : constructErr alloc mod.ctx ((tokenize region).getD k []) k = some e) :
    ∃ out, kmod_module_parse_dep alloc mod line = some out ∧
      out.ret = e ∧ out.mod = mod ∧
      out.released = specDeps mod.ctx ((tokenize region).take k) ∧
      ∀ x ∈ out.released,
        kmod_module_unref (some x) = (none, some ⟨x.dep, x.ctx, x.path, x.name⟩) := by
  have hfold : depFold alloc mod.ctx (tokenize region) 0 [] =
      .fail (([] : List kmod_module) ++ specDeps mod.ctx ((tokenize region).take k)) e :=
    depFold_fail alloc mod.ctx (tokenize region) k e 0 [] hk
      (by intro j hj; simpa using hok j hj) (by simpa using hfail)
  have hrun : (depRun alloc mod.ctx region none 0 []).2 =
      .fail (specDeps mod.ctx ((tokenize region).take k)) e := by
    rw [depRun_snd alloc mod.ctx region none 0 []]
    simpa [tokenize] using hfold
  refine ⟨⟨.mk mod.ctx mod.path mod.name mod.dep mod.refcount false, e,
      specDeps mod.ctx ((tokenize region).take k),
      (line.takeWhile (fun c => c ≠ ':')) ++ ':' ::
        (depRun alloc mod.ctx region none 0 []).1⟩, ?_, rfl, ?_, rfl, ?_⟩
  · unfold kmod_module_parse_dep
    rw [if_neg (by simp [hg, hd]), hc]
    simp only [hrun]
  · cases mod with
    | mk c p nm d rc i =>
        simp only [kmod_module.ctx, kmod_module.path, kmod_module.name,
          kmod_module.dep, kmod_module.refcount]
        have : i = false := hg
        rw [this]
  · intro x hx
    obtain ⟨t, -, hxt⟩ := List.mem_map.mp hx
    rw [← hxt]
    simp [kmod_module_unref, kmod_module.refcount, kmod_module.ctx,
      kmod_module.path, kmod_module.name, kmod_module.dep]

/-- Claim C3, witness: on line `"m: a b c"` with the second `calloc`
failing, the first handle is released and destroyed, the module is
unchanged and `-ENOMEM` is propagated. -/
theorem C3_witness :
    ∃ out, kmod_module_parse_dep (fun n => n == 0)
        (.mk 7 none (some (toL "m")) [] 1 false) (toL "m: a b c") = some out ∧
      out.ret = -ENOMEM ∧
      out.mod = .mk 7 none (some (toL "m")) [] 1 false ∧
      out.released = specDeps 7 ((tokenize (toL " a b c")).take 1) ∧
      ∀ x ∈ out.released,
        kmod_module_unref (some x) = (none, some ⟨x.dep, x.ctx, x.path, x.name⟩) :=
  C3_parse_dep_rollback (fun n => n == 0) (.mk 7 none (some (toL "m")) [] 1 false)
    (toL "m: a b c") (toL " a b c") 1 (-ENOMEM) rfl rfl rfl (by decide)
    (fun j hj => by
      have : j = 0 := by omega
      subst this
      decide)
    (by decide)

/-- Claim C4, counterexample: the line `"m: x/"` has a colon followed
by one token, but that token's basename is empty, so its construction
fails and `kmod_module_parse_dep` returns `-ENOENT` with no dependency
list instead of the 1-element list per token the claim asserts. -/
theorem C4_counterexample :
    kmod_module_parse_dep (fun _ => true)
        (.mk 7 none (some (toL "m")) [] 1 false) (toL "m: x/") =
      some ⟨.mk 7 none (some (toL "m")) [] 1 false, -ENOENT, [], toL "m: x/"⟩ ∧
    (tokenize (toL " x/")).length = 1 ∧ (-ENOENT : Int) ≠ 1 := by
  refine ⟨rfl, by decide, by decide⟩

/-- Claim C4, amended: a line without a colon commits zero dependencies
and returns 0 with success; a line with a colon whose tokens all
construct successfully (non-empty basenames, allocations succeeding)
commits exactly one handle per whitespace token after the first colon,
each canonicalized by `path_to_modname`, in token order, and returns
the token count. -/
theorem C4_parse_dep_tokens :
    (∀ (alloc : Nat → Bool) (mod : kmod_module) (line : CStr),
      mod.initDep = false → mod.dep = [] → strchrColon line = none →
      kmod_module_parse_dep alloc mod line =
        some ⟨.mk mod.ctx mod.path mod.name mod.dep mod.refcount true, 0, [], line⟩) ∧
    (∀ (alloc : Nat → Bool) (mod : kmod_module) (line region : CStr),
      mod.initDep = false → mod.dep = [] → strchrColon line = some region →
      (∀ j, j < (tokenize region).length →
        constructErr alloc mod.ctx ((tokenize region).getD j []) j = none) →
      ∃ out, kmod_module_parse_dep alloc mod line = some out ∧
        out.mod.dep = specDeps mod.ctx (tokenize region) ∧
        out.ret = ((tokenize region).length : Int) ∧
        out.released = [] ∧
        out.mod.initDep = true ∧
        out.mod.name = mod.name ∧ out.mod.path = mod.path) := by
  constructor
  · intro alloc mod line hg hd hc
    unfold kmod_module_parse_dep
    rw [if_neg (by simp [hg, hd]), hc]
  · intro alloc mod line region hg hd hc hall
    have hfold : depFold alloc mod.ctx (tokenize region) 0 [] =
        .ok (([] : List kmod_module) ++ specDeps mod.ctx (tokenize region))
          (0 + (tokenize region).length) :=
      depFold_ok alloc mod.ctx (tokenize region) 0 []
        (by intro j hj; simpa using hall j hj)
    have hrun : (depRun alloc mod.ctx region none 0 []).2 =
        .ok (specDeps mod.ctx (tokenize region)) ((tokenize region).length) := by
      rw [depRun_snd alloc mod.ctx region none 0 []]
      simpa [tokenize] using hfold
    refine ⟨⟨.mk mod.ctx mod.path mod.name (specDeps mod.ctx (tokenize region))
        mod.refcount true, ((tokenize region).length : Int), [],
        (line.takeWhile (fun c => c ≠ ':')) ++ ':' ::
          (depRun alloc mod.ctx region none 0 []).1⟩, ?_, rfl, rfl, rfl, rfl, rfl, rfl⟩
    unfold kmod_module_parse_dep
    rw [if_neg (by simp [hg, hd]), hc]
    simp only [hrun]

/-- Claim C4, witness: the spec's own example line `"mod: a b c"`
commits the three handles `[a, b, c]` in order and returns 3; a line
without a colon returns 0 with no dependencies. -/
theorem C4_witness :
    (∃ out, kmod_module_parse_dep (fun _ => true)
        (.mk 7 none (some (toL "mod")) [] 1 false) (toL "mod: a b c") = some out ∧
      out.mod.dep = specDeps 7 (tokenize (toL " a b c")) ∧
      out.ret = ((tokenize (toL " a b c")).length : Int) ∧
      out.released = [] ∧
      out.mod.initDep = true ∧
      out.mod.name = some (toL "mod") ∧ out.mod.path = none) ∧
    kmod_module_parse_dep (fun _ => true)
        (.mk 7 none (some (toL "mod")) [] 1 false) (toL "mod a b c") =
      some ⟨.mk 7 none (some (toL "mod")) [] 1 true, 0, [], toL "mod a b c"⟩ :=
  ⟨C4_parse_dep_tokens.2 (fun _ => true) (.mk 7 none (some (toL "mod")) [] 1 false)
      (toL "mod: a b c") (toL " a b c") rfl rfl rfl
      (fun j hj => by
        have : j = 0 ∨ j = 1 ∨ j = 2 := by
          simp only [show (tokenize (toL " a b c")).length = 3 from by decide] at hj
          omega
        rcases this with h | h | h <;> (subst h; decide)),
    C4_parse_dep_tokens.1 (fun _ => true) (.mk 7 none (some (toL "mod")) [] 1 false)
      (toL "mod a b c") rfl rfl rfl⟩

/-- Whenever the `strtok_r` loop sees at least two tokens, it writes at
least one NUL into the region (the separator terminating the first of
them). -/
theorem depRun_buf_nul (alloc : Nat → Bool) (ctx : Nat) :
    ∀ (s : CStr) (st : Option CStr) (n : Nat) (acc : List kmod_module),
      2 ≤ (tokRun s st).length →
      NUL ∈ (depRun alloc ctx s st n acc).1 := by
  intro s
  induction s with
  | nil =>
      intro st n acc h2
      cases st with
      | none => simp [tokRun] at h2
      | some tokRev => simp [tokRun] at h2
  | cons c rest ih =>
      intro st n acc h2
      cases st with
      | none =>
          cases hc : isSep c with
          | true =>
              have := ih none n acc (by simpa [tokRun, hc] using h2)
              simp [depRun, hc, this]
          | false =>
              have := ih (some [c]) n acc (by simpa [tokRun, hc] using h2)
              simp [depRun, hc, this]
      | some tokRev =>
          cases hc : isSep c with
          | false =>
              have := ih (some (c :: tokRev)) n acc (by simpa [tokRun, hc] using h2)
              simp [depRun, hc, this]
          | true =>
              cases hcon : kmod_module_new_from_name (alloc n) (some ctx)
                  (path_to_modname tokRev.reverse) with
              | error e => simp [depRun, hc, hcon]
              | ok m => simp [depRun, hc, hcon]

/-- Claim C10, counterexample: the line `"mod: a"` has a colon followed
by one token, `kmod_module_parse_dep` succeeds on it, and the caller's
buffer is left exactly as it was — the single final token is not
followed by a separator, contains no '-' and no '.', so neither
`strtok_r` nor `path_to_modname` writes anything. -/
theorem C10_counterexample :
    kmod_module_parse_dep (fun _ => true)
        (.mk 7 none (some (toL "mod")) [] 1 false) (toL "mod: a") =
      some ⟨.mk 7 none (some (toL "mod"))
          [.mk 7 none (some (toL "a")) [] 1 false] 1 true, 1, [], toL "mod: a"⟩ := by
  rfl

/-- Claim C10, amended: tokenization and in-place canonicalization can
overwrite characters of the caller's buffer on both the success and
the failure path (`strtok_r` puts a NUL over the separator after each
non-final processed token; `path_to_modname` rewrites '-' to '_' and
truncates at the first '.' within the GNU basename of each processed
token, and writes nothing for a token with an empty basename) — in
particular, whenever the region after the colon holds at least two
tokens, a NUL overwrites the separator after the first token and the
buffer no longer holds the original line; but a line whose single
token extends to the end of the line and needs no rewriting is left
unchanged, so the buffer is not modified for every token-carrying
line. -/
theorem C10_buffer_modified (alloc : Nat → Bool) (mod : kmod_module)
    (line region : CStr)
    (hg : mod.initDep = false) (hd : mod.dep = [])
    (hc : strchrColon line = some region)
    (h2 : 2 ≤ (tokenize region).length)
    (hnul : NUL ∉ line) :
    ∃ out, kmod_module_parse_dep alloc mod line = some out ∧ out.buf ≠ line := by
  have hmem : NUL ∈ (depRun alloc mod.ctx region none 0 []).1 :=
    depRun_buf_nul alloc mod.ctx region none 0 [] (by simpa [tokenize] using h2)
  have hbuf : ∀ buf : CStr,
      buf = (line.takeWhile (fun c => c ≠ ':')) ++ ':' ::
        (depRun alloc mod.ctx region none 0 []).1 → buf ≠ line := by
    intro buf hb heq
    apply hnul
    rw [← heq, hb]
    exact List.mem_append_right _ (List.mem_cons_of_mem ':' hmem)
  unfold kmod_module_parse_dep
  rw [if_neg (by simp [hg, hd]), hc]
  cases hr : (depRun alloc mod.ctx region none 0 []).2 with
  | ok list n =>
      simp only [hr]
      exact ⟨_, rfl, hbuf _ rfl⟩
  | fail rel e =>
      simp only [hr]
      exact ⟨_, rfl, hbuf _ rfl⟩

/-- Claim C10, witness: the two-token line `"m: a b"` comes back with a
buffer different from the original. -/
theorem C10_witness :
    ∃ out, kmod_module_parse_dep (fun _ => true)
        (.mk 7 none (some (toL "m")) [] 1 false) (toL "m: a b") = some out ∧
      out.buf ≠ toL "m: a b" :=
  C10_buffer_modified (fun _ => true) (.mk 7 none (some (toL "m")) [] 1 false)
    (toL "m: a b") (toL " a b") rfl rfl rfl (by decide) (by decide)
